import Mathlib

/-!
Verification of the `python-connect-business-objects` library.

The library manipulates JSON-like documents (Python dicts whose values are
strings, numbers, nested dicts or lists).  We embed such documents as the
inductive type `Value`; a document (Python `dict`) is an association list
of string keys and values in insertion order, which is exactly the
observable state of a CPython dict.  Mutating operations of the source
(`d[k] = v`, `d.update(other)`, in-place element update inside a list) are
embedded as pure functions returning the new document; raised exceptions
are embedded as `Except` error results.
-/

set_option maxHeartbeats 1000000

namespace ConnectBO

/-- A JSON-like value: the payloads the library manipulates. -/
inductive Value where
  | null : Value
  | bool (b : Bool) : Value
  | int (n : Int) : Value
  | str (s : String) : Value
  | list (elems : List Value) : Value
  | dict (entries : List (String × Value)) : Value

/-- A document: a Python dict, i.e. string keys with values in insertion order. -/
abbrev Dict := List (String × Value)

/-- Reading `d.get(k)` / `d[k]`: the value at the first (unique, in CPython) entry with key `k`. -/
def dLookup : Dict → String → Option Value
  | [], _ => none
  | (k', v) :: rest, k => if k' = k then some v else dLookup rest k

/-- The membership test `k in d` of Python. -/
def hasKey (d : Dict) (k : String) : Bool :=
  (dLookup d k).isSome

/-- The assignment `d[k] = v` of Python: replaces the value of an existing key in
place (keeping its position), otherwise appends the new entry at the end. -/
def setKey : Dict → String → Value → Dict
  | [], k, v => [(k, v)]
  | (k', v') :: rest, k, v =>
    if k' = k then (k', v) :: rest else (k', v') :: setKey rest k v

/-- The call `d.update(other)` of Python: assigns each entry of `other` in order. -/
def dictUpdate (d : Dict) (other : Dict) : Dict :=
  other.foldl (fun acc kv => setKey acc kv.1 kv.2) d

/-- The keys of a document, in order. -/
def keysOf (d : Dict) : List String :=
  d.map Prod.fst

/-- Whether a value is a Python `dict`. -/
def isDict : Value → Bool
  | Value.dict _ => true
  | _ => false

/-- Whether a value is a Python `list`. -/
def isList : Value → Bool
  | Value.list _ => true
  | _ => false

/-- Whether a value is Python's `None`. -/
def isNull : Value → Bool
  | Value.null => true
  | _ => false

mutual

/-- Embedding of `helpers.merge(base, override)`: iterates the entries of
`override` in order, folding each one into (a copy of) `base`. -/
def merge : Dict → Dict → Dict
  | base, [] => base
  | base, (k, v) :: rest => merge (mergeKey base k v) rest
termination_by base o => (sizeOf o, 0)

/-- One iteration of the loop body of `helpers.merge` for the entry `(k, v)` of
`override`: if `k` is present the two values are combined in place, otherwise
the entry is appended (the effect of `new_base[key] = value` on a missing key). -/
def mergeKey : Dict → String → Value → Dict
  | [], k, v => [(k, v)]
  | (k', v') :: rest, k, v =>
    if k' = k then (k', mergeValue v' v) :: rest
    else (k', v') :: mergeKey rest k v
termination_by base k v => (sizeOf v + 1, sizeOf base)

/-- How `helpers.merge` combines the two values stored under a key present in
both documents: two dicts recurse, two lists concatenate (the in-place
`extend`), anything else is replaced by the override value. -/
def mergeValue : Value → Value → Value
  | Value.dict b, Value.dict o => Value.dict (merge b o)
  | Value.list b, Value.list o => Value.list (b ++ o)
  | _, o => o
termination_by a b => (sizeOf b, 0)

end

/-- Embedding of Python's `x if x is not None else default-string`, used by
`helpers.make_param` for the `title`, `description` and `type` defaults and by
`Asset.with_item_param` for the `scope` and `phase` defaults. -/
def orDefault (v : Value) (d : String) : Value :=
  match v with
  | Value.null => Value.str d
  | v => v

/-- The test `element['id'] == element_id` of `helpers.find_by_id` on one
element `d` (every element the library stores in `params`/`items` carries a
string `id`; comparing a non-string to the string id is `False` in Python). -/
def idMatches (d : Dict) (eid : String) : Bool :=
  match dLookup d "id" with
  | some (Value.str s) => s == eid
  | _ => false

/-- Whether a stored element (a `Value` inside a `params`/`items` sequence)
matches the given id; the library only ever stores dicts in those sequences. -/
def elemMatchesId (e : Value) (eid : String) : Bool :=
  match e with
  | Value.dict d => idMatches d eid
  | _ => false

/-- Embedding of `helpers.find_by_id(elements, element_id)` (with the default
left at `None`): the first element whose `id` equals `element_id`. -/
def find_by_id : List Value → String → Option Dict
  | [], _ => none
  | Value.dict d :: rest, eid =>
    if idMatches d eid then some d else find_by_id rest eid
  | _ :: rest, eid => find_by_id rest eid

/-- In-place mutation of the element found by `find_by_id`: the Python upserts
hold a reference `param` into the list and call `param.update(members)`; here we
rebuild the list with the first matching element updated. -/
def updateFirstById : List Value → String → Dict → List Value
  | [], _, _ => []
  | Value.dict d :: rest, eid, members =>
    if idMatches d eid then Value.dict (dictUpdate d members) :: rest
    else Value.dict d :: updateFirstById rest eid members
  | e :: rest, eid, members => e :: updateFirstById rest eid members

/-- In-place replacement of the element found by `find_by_id` with a new dict;
used to embed mutation of a nested member of the found element. -/
def replaceFirstById : List Value → String → Dict → List Value
  | [], _, _ => []
  | Value.dict d :: rest, eid, nd =>
    if idMatches d eid then Value.dict nd :: rest
    else Value.dict d :: replaceFirstById rest eid nd
  | e :: rest, eid, nd => e :: replaceFirstById rest eid nd

/-- View of a value as a sequence; the library only calls this on values it has
itself stored as lists. -/
def asList (v : Value) : List Value :=
  match v with
  | Value.list xs => xs
  | _ => []

/-- Embedding of `d.get(k, [])` on a key that holds an ordered sequence (the
`params` / `items` collections, which the adapters only ever write as lists). -/
def getList (d : Dict) (k : String) : List Value :=
  match dLookup d k with
  | some v => asList v
  | none => []

/-- Statement that a key holds an ordered sequence or is absent: the shape in
which the library itself always stores its `params`/`items` collections.
Claims about the create-on-missing paths are stated under this hypothesis,
since on a non-sequence value the Python source would fail instead. -/
def listShaped (d : Dict) (k : String) : Prop :=
  dLookup d k = none ∨ ∃ xs, dLookup d k = some (Value.list xs)

/-- The field name chosen by `helpers.make_param` for the caller's value:
`structured_value` when `type(value) in [object, dict, list]`, else `value`. -/
def structuredKey (value : Value) : String :=
  if isDict value || isList value then "structured_value" else "value"

/-- Embedding of `helpers.make_param`: builds the full parameter dict, with the
`title`, `description` and `type` fields defaulted when the caller passes
`None`. Optional arguments the caller leaves out are `Value.null`. -/
def make_param (param_id : String) (value value_error value_type title description scope phase : Value) : Dict :=
  [ ("id", Value.str param_id),
    (structuredKey value, value),
    ("value_error", value_error),
    ("title", orDefault title ("Parameter " ++ param_id ++ " title.")),
    ("description", orDefault description ("Parameter " ++ param_id ++ " description.")),
    ("type", orDefault value_type "text"),
    ("scope", scope),
    ("phase", phase) ]

/-- The member filter applied before every `param.update(...)` in the source:
`\x7bk: v for k, v in members.items() if v is not None\x7d`. -/
def filterNonNull (d : Dict) : Dict :=
  d.filter (fun kv => !(isNull kv.2))

/-- One classification rule of `helpers.request_model`. -/
structure RequestRule where
  request : String
  object : String
  types : List String

/-- The two fixed rule entries of `helpers.request_model`, in order. -/
def requestRules : List RequestRule :=
  [ { request := "asset", object := "asset",
      types := ["adjustment", "purchase", "change", "suspend", "resume", "cancel"] },
    { request := "tier-config", object := "configuration",
      types := ["setup"] } ]

/-- The predicate `match_request_type` of `helpers.request_model`:
`model.get('object') in request or request.get('type') in model.get('types')`. -/
def matchRequestType (request : Dict) (rule : RequestRule) : Bool :=
  hasKey request rule.object ||
    (match dLookup request "type" with
     | some (Value.str t) => rule.types.contains t
     | _ => false)

/-- Embedding of `helpers.request_model`: the `request` field of the first
matching rule, or `undefined` when no rule matches (`StopIteration`). -/
def request_model (request : Dict) : String :=
  match requestRules.find? (matchRequestType request) with
  | some rule => rule.request
  | none => "undefined"

/-- Spec-side restatement of the classification rule, written from the claim's
words (first rule match wins), to be compared with `request_model`. -/
def requestModelSpec (d : Dict) : String :=
  if hasKey d "asset" ||
      (match dLookup d "type" with
       | some (Value.str t) =>
         ["adjustment", "purchase", "change", "suspend", "resume", "cancel"].contains t
       | _ => false) then "asset"
  else if hasKey d "configuration" ||
      (match dLookup d "type" with
       | some (Value.str t) => t == "setup"
       | _ => false) then "tier-config"
  else "undefined"

/-- The two exception types of `exceptions.py`, as the two failure kinds. -/
inductive BOError where
  | missingParameter (message : String) (parameter : Option String)
  | missingItem (message : String) (item : Option String)
deriving DecidableEq

/-- Whether a failure is of the "missing parameter" kind. -/
def BOError.isMissingParameterKind : BOError → Bool
  | BOError.missingParameter _ _ => true
  | _ => false

/-- Embedding of `Asset.with_param` (`adapters.py`): find-or-append by id, then
`param.update` with the non-`None` members of `make_param(param_id, value,
value_error, value_type, title, description)`. -/
def Asset.with_param (asset : Dict) (param_id : String) (value value_error value_type title description : Value) : Dict :=
  let params := getList asset "params"
  let params1 :=
    match find_by_id params param_id with
    | some _ => params
    | none => params ++ [Value.dict [("id", Value.str param_id)]]
  let members := filterNonNull (make_param param_id value value_error value_type title description Value.null Value.null)
  setKey asset "params" (Value.list (updateFirstById params1 param_id members))

/-- Embedding of `HasParameters.with_param` (`mixin.py`): like the adapter
upsert but with a `create` flag; when the parameter is missing and `create` is
`False` the `MissingParameterError` raised by `self.param` propagates and the
document is left untouched. The mixin fixes `value_type` to `'text'` by
default and passes no `title`/`description`. -/
def HasParameters.with_param (data : Dict) (param_id : String) (value value_error value_type : Value) (create : Bool) : Except BOError Dict :=
  let params := getList data "params"
  let members := filterNonNull (make_param param_id value value_error value_type Value.null Value.null Value.null Value.null)
  match find_by_id params param_id with
  | some _ =>
    Except.ok (setKey data "params" (Value.list (updateFirstById params param_id members)))
  | none =>
    if create then
      let params1 := params ++ [Value.dict [("id", Value.str param_id)]]
      Except.ok (setKey data "params" (Value.list (updateFirstById params1 param_id members)))
    else
      Except.error (BOError.missingParameter ("Missing parameter " ++ param_id) (some param_id))

/-- Embedding of `Asset.item(item_id)` (no projection key): the found item, or
the raised `MissingItemError`. -/
def Asset.item (asset : Dict) (item_id : String) : Except BOError Dict :=
  match find_by_id (getList asset "items") item_id with
  | none => Except.error (BOError.missingItem ("Missing item " ++ item_id) (some item_id))
  | some item => Except.ok item

/-- Embedding of `Asset.item(item_id, key, default)` with a projection key:
`item.get(key, default)` on the found item. -/
def Asset.itemGet (asset : Dict) (item_id key : String) (default : Value) : Except BOError Value :=
  match Asset.item asset item_id with
  | Except.error e => Except.error e
  | Except.ok item =>
    Except.ok (match dLookup item key with
               | some v => v
               | none => default)

/-- Embedding of `Asset.item_param(item_id, param_id)` (no projection key):
looks the parameter up inside `self.item(item_id, 'params', [])` and, when it
is absent, raises `MissingItemError` with the item id, exactly as the source
does. -/
def Asset.item_param (asset : Dict) (item_id param_id : String) : Except BOError Dict :=
  match Asset.itemGet asset item_id "params" (Value.list []) with
  | Except.error e => Except.error e
  | Except.ok ps =>
    match find_by_id (asList ps) param_id with
    | none =>
      Except.error (BOError.missingItem ("Missing item " ++ param_id ++ " in item " ++ item_id) (some item_id))
    | some p => Except.ok p

/-- Embedding of `Asset.with_item_param`: requires the item to exist, then
upserts the parameter inside the item's `params` list, with `scope` defaulted
to `'item'` and `phase` to `'configuration'`.  When the item has no `params`
key, CPython appends the new parameter to the temporary default list
`item.get('params', [])`, so the document is left unchanged. -/
def Asset.with_item_param (asset : Dict) (item_id param_id : String) (value value_type title description scope phase : Value) : Except BOError Dict :=
  match find_by_id (getList asset "items") item_id with
  | none => Except.error (BOError.missingItem ("Missing item " ++ item_id) (some item_id))
  | some item =>
    let members := filterNonNull (make_param param_id value Value.null value_type title description
      (orDefault scope "item") (orDefault phase "configuration"))
    let item' :=
      match dLookup item "params" with
      | some (Value.list ps) =>
        match find_by_id ps param_id with
        | some _ => setKey item "params" (Value.list (updateFirstById ps param_id members))
        | none =>
          setKey item "params"
            (Value.list (updateFirstById (ps ++ [Value.dict [("id", Value.str param_id)]]) param_id members))
      | _ => item
    Except.ok (setKey asset "items" (Value.list (replaceFirstById (getList asset "items") item_id item')))

/-- The keyword arguments a caller may pass for one item parameter in the
`params` argument of `Asset.with_item` / `Asset.with_item_params`; arguments
the caller leaves out are `Value.null`. -/
structure ItemParamArgs where
  param_id : String
  value : Value
  value_type : Value
  title : Value
  description : Value
  scope : Value
  phase : Value

/-- Embedding of `Asset.with_item_params`: one `with_item_param` call per
entry, in order. -/
def Asset.with_item_params (asset : Dict) (item_id : String) : List ItemParamArgs → Except BOError Dict
  | [] => Except.ok asset
  | a :: rest =>
    match Asset.with_item_param asset item_id a.param_id a.value a.value_type a.title a.description a.scope a.phase with
    | Except.error e => Except.error e
    | Except.ok asset' => Asset.with_item_params asset' item_id rest

/-- Embedding of `Asset.with_item`: find-or-append the item by id, update it
with the non-`None` members (note `params` is always the member `[]`, and
`quantity` defaults to `'1'` at the call site), then upsert the supplied item
parameters (none when the argument is omitted). -/
def Asset.with_item (asset : Dict) (item_id item_mpn : String) (quantity old_quantity item_type period unit display_name global_id : Value) (params : Option (List ItemParamArgs)) : Except BOError Dict :=
  let items := getList asset "items"
  let asset1 :=
    match find_by_id items item_id with
    | some _ => asset
    | none => setKey asset "items" (Value.list (items ++ [Value.dict [("id", Value.str item_id)]]))
  let members := filterNonNull
    [ ("global_id", global_id),
      ("display_name", display_name),
      ("mpn", Value.str item_mpn),
      ("quantity", quantity),
      ("old_quantity", old_quantity),
      ("params", Value.list []),
      ("item_type", item_type),
      ("period", period),
      ("type", unit) ]
  let asset2 := setKey asset1 "items" (Value.list (updateFirstById (getList asset1 "items") item_id members))
  Asset.with_item_params asset2 item_id (params.getD [])

/-- Embedding of the `Request.__init__` guard: `None` becomes the empty dict,
a dict is wrapped as is, anything else raises `ValueError`. -/
def Request.init (request : Value) : Except String Dict :=
  match request with
  | Value.null => Except.ok []
  | Value.dict d => Except.ok d
  | _ => Except.error "Request must be a dictionary."

/-- Embedding of the `Asset.__init__` guard. -/
def Asset.init (asset : Value) : Except String Dict :=
  match asset with
  | Value.null => Except.ok []
  | Value.dict d => Except.ok d
  | _ => Except.error "Asset must be a dictionary."

/-- Embedding of the `TierConfiguration.__init__` guard. -/
def TierConfiguration.init (tier_config : Value) : Except String Dict :=
  match tier_config with
  | Value.null => Except.ok []
  | Value.dict d => Except.ok d
  | _ => Except.error "Tier Configuration must be a dictionary."

/-- Embedding of `Request.raw()` (default `deep_copy=False`): the wrapped
mapping itself; `deepcopy` is the identity on immutable values, so the
`deep_copy=True` variant returns the same value. -/
def Request.raw (request : Dict) : Dict := request

/-- Embedding of `Asset.raw()`. -/
def Asset.raw (asset : Dict) : Dict := asset

/-- Embedding of `TierConfiguration.raw()`. -/
def TierConfiguration.raw (tier_config : Dict) : Dict := tier_config

/-! Basic lemmas about the dict primitives. -/

theorem dLookup_eq_none_iff (d : Dict) (k : String) :
    dLookup d k = none ↔ k ∉ keysOf d := by
  induction d with
  | nil => simp [dLookup, keysOf]
  | cons kv rest ih =>
    obtain ⟨k', v⟩ := kv
    by_cases h : k' = k
    · subst h; simp [dLookup, keysOf]
    · simp [dLookup, keysOf, h, ih]
      tauto

theorem dLookup_setKey_self (d : Dict) (k : String) (v : Value) :
    dLookup (setKey d k v) k = some v := by
  induction d with
  | nil => simp [setKey, dLookup]
  | cons kv rest ih =>
    obtain ⟨k', v'⟩ := kv
    by_cases h : k' = k
    · subst h; simp [setKey, dLookup]
    · simp [setKey, dLookup, h, ih]

theorem dLookup_setKey_ne (d : Dict) (j k : String) (v : Value) (h : j ≠ k) :
    dLookup (setKey d k v) j = dLookup d j := by
  induction d with
  | nil => simp [setKey, dLookup, Ne.symm h]
  | cons kv rest ih =>
    obtain ⟨k', v'⟩ := kv
    by_cases hk : k' = k
    · subst hk; simp [setKey, dLookup, Ne.symm h]
    · by_cases hj : k' = j
      · subst hj; simp [setKey, dLookup, hk]
      · simp [setKey, dLookup, hk, hj, ih]

theorem dLookup_dictUpdate_not_mem (d ms : Dict) (k : String) (h : k ∉ keysOf ms) :
    dLookup (dictUpdate d ms) k = dLookup d k := by
  induction ms generalizing d with
  | nil => simp [dictUpdate]
  | cons kv rest ih =>
    obtain ⟨k', v'⟩ := kv
    simp only [keysOf, List.map_cons, List.mem_cons, not_or] at h
    have step : dictUpdate d ((k', v') :: rest) = dictUpdate (setKey d k' v') rest := rfl
    rw [step, ih (setKey d k' v') (by simpa [keysOf] using h.2),
      dLookup_setKey_ne d k k' v' h.1]

theorem dLookup_dictUpdate_mem (d ms : Dict) (k : String) (x : Value)
    (hnd : (keysOf ms).Nodup) (h : dLookup ms k = some x) :
    dLookup (dictUpdate d ms) k = some x := by
  induction ms generalizing d with
  | nil => simp [dLookup] at h
  | cons kv rest ih =>
    obtain ⟨k', v'⟩ := kv
    simp only [keysOf, List.map_cons, List.nodup_cons] at hnd
    have step : dictUpdate d ((k', v') :: rest) = dictUpdate (setKey d k' v') rest := rfl
    by_cases hk : k' = k
    · subst hk
      rw [dLookup, if_pos rfl, Option.some.injEq] at h
      subst h
      rw [step, dLookup_dictUpdate_not_mem _ _ _ (by simpa [keysOf] using hnd.1),
        dLookup_setKey_self]
    · simp only [dLookup, if_neg hk] at h
      rw [step, ih (setKey d k' v') (by simpa [keysOf] using hnd.2) h]

theorem getList_setKey_list (d : Dict) (k : String) (xs : List Value) :
    getList (setKey d k (Value.list xs)) k = xs := by
  simp [getList, dLookup_setKey_self, asList]

theorem keysOf_filterNonNull_sublist (d : Dict) :
    List.Sublist (keysOf (filterNonNull d)) (keysOf d) := by
  simpa [keysOf] using (List.filter_sublist (l := d)).map Prod.fst

theorem dLookup_filterNonNull_of_none (d : Dict) (k : String) (h : dLookup d k = none) :
    dLookup (filterNonNull d) k = none := by
  rw [dLookup_eq_none_iff] at h ⊢
  exact fun hm => h ((keysOf_filterNonNull_sublist d).subset hm)

theorem dLookup_filterNonNull (d : Dict) (k : String) (x : Value)
    (hnd : (keysOf d).Nodup) (h : dLookup d k = some x) :
    dLookup (filterNonNull d) k = if isNull x then none else some x := by
  induction d with
  | nil => simp [dLookup] at h
  | cons kv rest ih =>
    obtain ⟨k', v'⟩ := kv
    simp only [keysOf, List.map_cons, List.nodup_cons] at hnd
    by_cases hk : k' = k
    · subst hk
      rw [dLookup, if_pos rfl, Option.some.injEq] at h
      by_cases hx : isNull v'
      · have hrest : dLookup (filterNonNull rest) k' = none := by
          rw [dLookup_eq_none_iff]
          exact fun hm => hnd.1 ((keysOf_filterNonNull_sublist rest).subset hm)
        rw [← h]
        simpa [filterNonNull, hx] using hrest
      · rw [← h]
        simp [filterNonNull, hx, dLookup]
    · simp only [dLookup, if_neg hk] at h
      have tail := ih hnd.2 h
      by_cases hv : isNull v'
      · simpa [filterNonNull, hv] using tail
      · simpa [filterNonNull, hv, dLookup, hk] using tail

/-! Lemmas about `merge`. -/

theorem merge_nil (base : Dict) : merge base [] = base := by
  simp [merge]

theorem merge_cons (base : Dict) (k : String) (v : Value) (rest : Dict) :
    merge base ((k, v) :: rest) = merge (mergeKey base k v) rest := by
  simp [merge]

theorem dLookup_mergeKey_self (base : Dict) (k : String) (v : Value) :
    dLookup (mergeKey base k v) k =
      some (match dLookup base k with
            | none => v
            | some bv => mergeValue bv v) := by
  induction base with
  | nil => simp [mergeKey, dLookup]
  | cons kv rest ih =>
    obtain ⟨k', v'⟩ := kv
    by_cases h : k' = k
    · subst h; simp [mergeKey, dLookup]
    · simp [mergeKey, dLookup, h, ih]

theorem dLookup_mergeKey_ne (base : Dict) (j k : String) (v : Value) (h : j ≠ k) :
    dLookup (mergeKey base k v) j = dLookup base j := by
  induction base with
  | nil => simp [mergeKey, dLookup, Ne.symm h]
  | cons kv rest ih =>
    obtain ⟨k', v'⟩ := kv
    by_cases hk : k' = k
    · subst hk; simp [mergeKey, dLookup, Ne.symm h]
    · by_cases hj : k' = j
      · subst hj; simp [mergeKey, dLookup, hk]
      · simp [mergeKey, dLookup, hk, hj, ih]

theorem dLookup_merge (base override : Dict) (k : String)
    (ho : (keysOf override).Nodup) :
    dLookup (merge base override) k =
      match dLookup override k, dLookup base k with
      | none, bv => bv
      | some ov, none => some ov
      | some ov, some bv => some (mergeValue bv ov) := by
  induction override generalizing base with
  | nil => cases hb : dLookup base k <;> simp [merge_nil, dLookup, hb]
  | cons kv rest ih =>
    obtain ⟨k', v⟩ := kv
    simp only [keysOf, List.map_cons, List.nodup_cons] at ho
    rw [merge_cons, ih (mergeKey base k' v) (by simpa [keysOf] using ho.2)]
    by_cases h : k' = k
    · subst h
      have hrest : dLookup rest k' = none :=
        (dLookup_eq_none_iff rest k').mpr (by simpa [keysOf] using ho.1)
      rw [hrest, dLookup_mergeKey_self]
      rw [dLookup, if_pos rfl]
      cases hb : dLookup base k' <;> simp [hb]
    · rw [dLookup_mergeKey_ne base k k' v (fun hkk => h hkk.symm)]
      rw [dLookup, if_neg h]

theorem mergeKey_not_mem (base : Dict) (k : String) (v : Value)
    (h : k ∉ keysOf base) :
    mergeKey base k v = base ++ [(k, v)] := by
  induction base with
  | nil => simp [mergeKey]
  | cons kv rest ih =>
    obtain ⟨k', v'⟩ := kv
    simp only [keysOf, List.map_cons, List.mem_cons, not_or] at h
    have hne : k' ≠ k := fun hkk => h.1 hkk.symm
    simp [mergeKey, hne, ih (by simpa [keysOf] using h.2)]

theorem merge_disjoint (base override : Dict)
    (hd : ∀ k ∈ keysOf override, k ∉ keysOf base)
    (ho : (keysOf override).Nodup) :
    merge base override = base ++ override := by
  induction override generalizing base with
  | nil => simp [merge_nil]
  | cons kv rest ih =>
    obtain ⟨k, v⟩ := kv
    simp only [keysOf, List.map_cons, List.nodup_cons] at ho
    have hk : k ∉ keysOf base := hd k (by simp [keysOf])
    rw [merge_cons, mergeKey_not_mem base k v hk]
    rw [ih (base ++ [(k, v)])]
    · simp
    · intro j hj
      have hj' : j ∈ keysOf ((k, v) :: rest) := by
        simp only [keysOf, List.map_cons, List.mem_cons]
        exact Or.inr (by simpa [keysOf] using hj)
      have hjb : j ∉ keysOf base := hd j hj'
      have hjk : j ≠ k := by
        intro he; subst he
        exact ho.1 (by simpa [keysOf] using hj)
      simp only [keysOf, List.map_append, List.mem_append, List.map_cons, List.map_nil,
        List.mem_singleton, not_or]
      exact ⟨by simpa [keysOf] using hjb, by simpa using hjk⟩
    · simpa [keysOf] using ho.2

/-! Lemmas about `find_by_id` and the in-place list updates. -/

theorem find_by_id_eq_none_iff (l : List Value) (eid : String) :
    find_by_id l eid = none ↔ ∀ e ∈ l, elemMatchesId e eid = false := by
  induction l with
  | nil => simp [find_by_id]
  | cons e rest ih =>
    cases e with
    | dict d =>
      by_cases h : idMatches d eid
      · simp [find_by_id, h, elemMatchesId]
      · simp [find_by_id, h, elemMatchesId, ih]
    | null => simpa [find_by_id, elemMatchesId] using ih
    | bool b => simpa [find_by_id, elemMatchesId] using ih
    | int n => simpa [find_by_id, elemMatchesId] using ih
    | str s => simpa [find_by_id, elemMatchesId] using ih
    | list xs => simpa [find_by_id, elemMatchesId] using ih

theorem find_by_id_prefix_skip (pre l : List Value) (eid : String)
    (h : ∀ e ∈ pre, elemMatchesId e eid = false) :
    find_by_id (pre ++ l) eid = find_by_id l eid := by
  induction pre with
  | nil => rfl
  | cons e rest ih =>
    have he := h e (by simp)
    have hrest : ∀ x ∈ rest, elemMatchesId x eid = false :=
      fun x hx => h x (by simp [hx])
    cases e with
    | dict d =>
      simp only [elemMatchesId] at he
      simp [find_by_id, he, ih hrest]
    | null => simpa [find_by_id] using ih hrest
    | bool b => simpa [find_by_id] using ih hrest
    | int n => simpa [find_by_id] using ih hrest
    | str s => simpa [find_by_id] using ih hrest
    | list xs => simpa [find_by_id] using ih hrest

theorem find_by_id_cons_match (d : Dict) (rest : List Value) (eid : String)
    (h : idMatches d eid = true) :
    find_by_id (Value.dict d :: rest) eid = some d := by
  simp [find_by_id, h]

theorem updateFirstById_prefix_skip (pre l : List Value) (eid : String) (ms : Dict)
    (h : ∀ e ∈ pre, elemMatchesId e eid = false) :
    updateFirstById (pre ++ l) eid ms = pre ++ updateFirstById l eid ms := by
  induction pre with
  | nil => rfl
  | cons e rest ih =>
    have he := h e (by simp)
    have hrest : ∀ x ∈ rest, elemMatchesId x eid = false :=
      fun x hx => h x (by simp [hx])
    cases e with
    | dict d =>
      simp only [elemMatchesId] at he
      simp [updateFirstById, he, ih hrest]
    | null => simpa [updateFirstById] using ih hrest
    | bool b => simpa [updateFirstById] using ih hrest
    | int n => simpa [updateFirstById] using ih hrest
    | str s => simpa [updateFirstById] using ih hrest
    | list xs => simpa [updateFirstById] using ih hrest

theorem updateFirstById_cons_match (d : Dict) (rest : List Value) (eid : String) (ms : Dict)
    (h : idMatches d eid = true) :
    updateFirstById (Value.dict d :: rest) eid ms = Value.dict (dictUpdate d ms) :: rest := by
  simp [updateFirstById, h]

theorem idMatches_seed (P : String) : idMatches [("id", Value.str P)] P = true := by
  simp [idMatches, dLookup]

/-! Lemmas about the fields of `make_param`. -/

theorem structuredKey_eq_or (v : Value) :
    structuredKey v = "value" ∨ structuredKey v = "structured_value" := by
  cases v <;> simp [structuredKey, isDict, isList]

theorem structuredKey_of_structured (v : Value) (hv : isDict v = true ∨ isList v = true) :
    structuredKey v = "structured_value" := by
  rcases hv with h | h <;> cases v <;> simp_all [structuredKey, isDict, isList]

theorem structuredKey_of_scalar (v : Value) (hd : isDict v = false) (hl : isList v = false) :
    structuredKey v = "value" := by
  simp [structuredKey, hd, hl]

theorem isNull_of_structured (v : Value) (hv : isDict v = true ∨ isList v = true) :
    isNull v = false := by
  rcases hv with h | h <;> cases v <;> simp_all [isDict, isList, isNull]

theorem isNull_orDefault (t : Value) (s : String) : isNull (orDefault t s) = false := by
  cases t <;> simp [orDefault, isNull]

theorem keysOf_make_param (P : String) (v ve vt t dsc sc ph : Value) :
    keysOf (make_param P v ve vt t dsc sc ph)
      = ["id", structuredKey v, "value_error", "title", "description", "type", "scope", "phase"] := rfl

theorem keysOf_make_param_nodup (P : String) (v ve vt t dsc sc ph : Value) :
    (keysOf (make_param P v ve vt t dsc sc ph)).Nodup := by
  rw [keysOf_make_param]
  rcases structuredKey_eq_or v with h | h <;> rw [h] <;> decide

theorem keysOf_members_nodup (P : String) (v ve vt t dsc sc ph : Value) :
    (keysOf (filterNonNull (make_param P v ve vt t dsc sc ph))).Nodup :=
  (keysOf_filterNonNull_sublist _).nodup (keysOf_make_param_nodup P v ve vt t dsc sc ph)

theorem dLookup_make_param_id (P : String) (v ve vt t dsc sc ph : Value) :
    dLookup (make_param P v ve vt t dsc sc ph) "id" = some (Value.str P) := by
  rcases structuredKey_eq_or v with h | h <;> simp [make_param, dLookup, h]

theorem dLookup_make_param_value_error (P : String) (v ve vt t dsc sc ph : Value) :
    dLookup (make_param P v ve vt t dsc sc ph) "value_error" = some ve := by
  rcases structuredKey_eq_or v with h | h <;> simp [make_param, dLookup, h]

theorem dLookup_make_param_title (P : String) (v ve vt t dsc sc ph : Value) :
    dLookup (make_param P v ve vt t dsc sc ph) "title"
      = some (orDefault t ("Parameter " ++ P ++ " title.")) := by
  rcases structuredKey_eq_or v with h | h <;> simp [make_param, dLookup, h]

theorem dLookup_make_param_description (P : String) (v ve vt t dsc sc ph : Value) :
    dLookup (make_param P v ve vt t dsc sc ph) "description"
      = some (orDefault dsc ("Parameter " ++ P ++ " description.")) := by
  rcases structuredKey_eq_or v with h | h <;> simp [make_param, dLookup, h]

theorem dLookup_make_param_type (P : String) (v ve vt t dsc sc ph : Value) :
    dLookup (make_param P v ve vt t dsc sc ph) "type" = some (orDefault vt "text") := by
  rcases structuredKey_eq_or v with h | h <;> simp [make_param, dLookup, h]

theorem dLookup_make_param_scope (P : String) (v ve vt t dsc sc ph : Value) :
    dLookup (make_param P v ve vt t dsc sc ph) "scope" = some sc := by
  rcases structuredKey_eq_or v with h | h <;> simp [make_param, dLookup, h]

theorem dLookup_make_param_phase (P : String) (v ve vt t dsc sc ph : Value) :
    dLookup (make_param P v ve vt t dsc sc ph) "phase" = some ph := by
  rcases structuredKey_eq_or v with h | h <;> simp [make_param, dLookup, h]

theorem dLookup_make_param_value_scalar (P : String) (v ve vt t dsc sc ph : Value)
    (hd : isDict v = false) (hl : isList v = false) :
    dLookup (make_param P v ve vt t dsc sc ph) "value" = some v
  ∧ dLookup (make_param P v ve vt t dsc sc ph) "structured_value" = none := by
  constructor <;> simp [make_param, dLookup, structuredKey_of_scalar v hd hl]

theorem dLookup_make_param_value_structured (P : String) (v ve vt t dsc sc ph : Value)
    (hv : isDict v = true ∨ isList v = true) :
    dLookup (make_param P v ve vt t dsc sc ph) "structured_value" = some v
  ∧ dLookup (make_param P v ve vt t dsc sc ph) "value" = none := by
  constructor <;> simp [make_param, dLookup, structuredKey_of_structured v hv]

/-- Membership in a one-element list is equality, on the `Bool` side. -/
theorem contains_singleton_eq (t s : String) : ([s].contains t) = (t == s) := by
  rcases eq_or_ne t s with h | h
  · subst h; simp
  · simp [h, List.contains]

/-- The first classification rule, unfolded. -/
theorem matchRequestType_asset (d : Dict) :
    matchRequestType d
      { request := "asset", object := "asset",
        types := ["adjustment", "purchase", "change", "suspend", "resume", "cancel"] }
      = (hasKey d "asset" ||
          match dLookup d "type" with
          | some (Value.str t) =>
            ["adjustment", "purchase", "change", "suspend", "resume", "cancel"].contains t
          | _ => false) := rfl

/-- The second classification rule, unfolded, with the singleton membership
reduced to an equality test. -/
theorem matchRequestType_tier (d : Dict) :
    matchRequestType d
      { request := "tier-config", object := "configuration", types := ["setup"] }
      = (hasKey d "configuration" ||
          match dLookup d "type" with
          | some (Value.str t) => t == "setup"
          | _ => false) := by
  unfold matchRequestType
  cases ht : dLookup d "type" with
  | none => rfl
  | some tv =>
    cases tv with
    | str s =>
      show (hasKey d "configuration" || ["setup"].contains s)
        = (hasKey d "configuration" || (s == "setup"))
      rw [contains_singleton_eq]
    | null => rfl
    | bool b => rfl
    | int n => rfl
    | list xs => rfl
    | dict es => rfl

/-- The classifier agrees with the claim's first-match-wins description. -/
theorem request_model_eq_spec (d : Dict) : request_model d = requestModelSpec d := by
  unfold request_model requestRules
  by_cases h1 : (hasKey d "asset" ||
      match dLookup d "type" with
      | some (Value.str t) =>
        ["adjustment", "purchase", "change", "suspend", "resume", "cancel"].contains t
      | _ => false) = true
  · rw [List.find?_cons_of_pos _ (by rw [matchRequestType_asset]; exact h1)]
    unfold requestModelSpec
    rw [if_pos h1]
  · rw [List.find?_cons_of_neg _ (by rw [matchRequestType_asset]; simpa using h1)]
    by_cases h2 : (hasKey d "configuration" ||
        match dLookup d "type" with
        | some (Value.str t) => t == "setup"
        | _ => false) = true
    · rw [List.find?_cons_of_pos _ (by rw [matchRequestType_tier]; exact h2)]
      unfold requestModelSpec
      rw [if_neg h1, if_pos h2]
    · rw [List.find?_cons_of_neg _ (by rw [matchRequestType_tier]; simpa using h2)]
      unfold requestModelSpec
      rw [if_neg h1, if_neg h2]
      rfl

/-! Example documents used by the witnesses and counterexamples. -/

/-- A small base document for the `merge` witnesses. -/
def mergeBaseEx : Dict := [("a", Value.int 1), ("l", Value.list [Value.int 1])]

/-- A small override document for the `merge` witnesses. -/
def mergeOverrideEx : Dict := [("l", Value.list [Value.int 2]), ("b", Value.int 3)]

/-- C1. For every pair of mappings `base` and `override`, `merge base override`
holds, at each key: `override`'s value when the key is absent in `base`, the
recursive merge when both values are mappings, the concatenation of the two
sequences when both are sequences, and otherwise `override`'s value; keys of
`base` not in `override` keep `base`'s value.  The hypothesis that `override`'s
keys are distinct is what CPython dicts guarantee by construction. -/
theorem merge_pointwise_characterisation (base override : Dict) (k : String)
    (ho : (keysOf override).Nodup) :
    (dLookup (merge base override) k =
      match dLookup override k, dLookup base k with
      | none, bv => bv
      | some ov, none => some ov
      | some ov, some bv => some (mergeValue bv ov))
  ∧ (∀ b o, mergeValue (Value.dict b) (Value.dict o) = Value.dict (merge b o))
  ∧ (∀ bs os, mergeValue (Value.list bs) (Value.list os) = Value.list (bs ++ os))
  ∧ (∀ bv ov, ¬(isDict bv = true ∧ isDict ov = true) →
      ¬(isList bv = true ∧ isList ov = true) → mergeValue bv ov = ov) := by
  refine ⟨dLookup_merge base override k ho, ?_, ?_, ?_⟩
  · intro b o; simp [mergeValue]
  · intro bs os; simp [mergeValue]
  · intro bv ov h1 h2
    cases bv <;> cases ov <;> simp_all [mergeValue, isDict, isList]

/-- Witness for C1 at a concrete pair of documents and key. -/
theorem merge_pointwise_characterisation_witness :
    (keysOf mergeOverrideEx).Nodup
  ∧ ((dLookup (merge mergeBaseEx mergeOverrideEx) "l" =
      match dLookup mergeOverrideEx "l", dLookup mergeBaseEx "l" with
      | none, bv => bv
      | some ov, none => some ov
      | some ov, some bv => some (mergeValue bv ov))
    ∧ (∀ b o, mergeValue (Value.dict b) (Value.dict o) = Value.dict (merge b o))
    ∧ (∀ bs os, mergeValue (Value.list bs) (Value.list os) = Value.list (bs ++ os))
    ∧ (∀ bv ov, ¬(isDict bv = true ∧ isDict ov = true) →
        ¬(isList bv = true ∧ isList ov = true) → mergeValue bv ov = ov)) :=
  ⟨by decide, merge_pointwise_characterisation mergeBaseEx mergeOverrideEx "l" (by decide)⟩

/-- C4. The empty mapping is a left and right identity for `merge`.  The third
part of the claim, that `merge` mutates neither input, is intrinsic to the
embedding: the source deep-copies `base` and only ever writes that copy, which
is exactly what the pure function `merge` expresses. -/
theorem merge_identity_laws (d : Dict) (hd : (keysOf d).Nodup) :
    merge d [] = d ∧ merge [] d = d := by
  refine ⟨merge_nil d, ?_⟩
  have h := merge_disjoint [] d (by simp [keysOf]) hd
  simpa using h

/-- Witness for C4 at a concrete document. -/
theorem merge_identity_laws_witness :
    (keysOf mergeBaseEx).Nodup
  ∧ (merge mergeBaseEx [] = mergeBaseEx ∧ merge [] mergeBaseEx = mergeBaseEx) :=
  ⟨by decide, merge_identity_laws mergeBaseEx (by decide)⟩

/-- C3. `request_model` agrees everywhere with the rule the claim states
(first match among the asset rule, then the tier-config rule, else
`undefined`), and takes the claimed values on the three example documents. -/
theorem request_model_characterisation (d : Dict) :
    request_model d = requestModelSpec d
  ∧ request_model [("type", Value.str "purchase"), ("asset", Value.dict [])] = "asset"
  ∧ request_model [("type", Value.str "setup"), ("configuration", Value.dict [])] = "tier-config"
  ∧ request_model [] = "undefined" := by
  exact ⟨request_model_eq_spec d, rfl, rfl, rfl⟩

/-- C9. Constructing any of the three façades from a mapping and reading it
back with `raw()` returns the same mapping; constructing from a non-mapping,
non-`None` initializer fails with the `ValueError` of the source. -/
theorem facade_roundtrip_and_guard (m : Dict) (v : Value)
    (hd : isDict v = false) (hn : isNull v = false) :
    (Request.init (Value.dict m)).map Request.raw = Except.ok m
  ∧ (Asset.init (Value.dict m)).map Asset.raw = Except.ok m
  ∧ (TierConfiguration.init (Value.dict m)).map TierConfiguration.raw = Except.ok m
  ∧ Request.init v = Except.error "Request must be a dictionary."
  ∧ Asset.init v = Except.error "Asset must be a dictionary."
  ∧ TierConfiguration.init v = Except.error "Tier Configuration must be a dictionary." := by
  refine ⟨rfl, rfl, rfl, ?_, ?_, ?_⟩ <;>
    cases v <;>
    simp_all [Request.init, Asset.init, TierConfiguration.init, isDict, isNull]

/-- Witness for C9 at a concrete mapping and a concrete non-mapping value. -/
theorem facade_roundtrip_and_guard_witness :
    isDict (Value.int 3) = false ∧ isNull (Value.int 3) = false
  ∧ ((Request.init (Value.dict mergeBaseEx)).map Request.raw = Except.ok mergeBaseEx
    ∧ (Asset.init (Value.dict mergeBaseEx)).map Asset.raw = Except.ok mergeBaseEx
    ∧ (TierConfiguration.init (Value.dict mergeBaseEx)).map TierConfiguration.raw
        = Except.ok mergeBaseEx
    ∧ Request.init (Value.int 3) = Except.error "Request must be a dictionary."
    ∧ Asset.init (Value.int 3) = Except.error "Asset must be a dictionary."
    ∧ TierConfiguration.init (Value.int 3)
        = Except.error "Tier Configuration must be a dictionary.") :=
  ⟨rfl, rfl, facade_roundtrip_and_guard mergeBaseEx (Value.int 3) rfl rfl⟩

/-! The two cases of the `Asset.with_param` upsert. -/

theorem asset_with_param_found_case (asset : Dict) (P : String) (v ve vt t dsc : Value)
    (pre post : List Value) (p : Dict)
    (hpre : ∀ e ∈ pre, elemMatchesId e P = false)
    (hp : idMatches p P = true)
    (hparams : dLookup asset "params" = some (Value.list (pre ++ Value.dict p :: post))) :
    getList (Asset.with_param asset P v ve vt t dsc) "params"
      = pre ++ Value.dict (dictUpdate p
          (filterNonNull (make_param P v ve vt t dsc Value.null Value.null))) :: post := by
  have hget : getList asset "params" = pre ++ Value.dict p :: post := by
    simp [getList, hparams, asList]
  have hfind : find_by_id (getList asset "params") P = some p := by
    rw [hget, find_by_id_prefix_skip pre _ P hpre, find_by_id_cons_match p post P hp]
  simp only [Asset.with_param, hfind, getList_setKey_list]
  rw [hget, updateFirstById_prefix_skip pre _ P _ hpre,
    updateFirstById_cons_match p post P _ hp]

theorem asset_with_param_missing_case (asset : Dict) (P : String) (v ve vt t dsc : Value)
    (h : find_by_id (getList asset "params") P = none) :
    getList (Asset.with_param asset P v ve vt t dsc) "params"
      = getList asset "params"
        ++ [Value.dict (dictUpdate [("id", Value.str P)]
             (filterNonNull (make_param P v ve vt t dsc Value.null Value.null)))] := by
  have hall : ∀ e ∈ getList asset "params", elemMatchesId e P = false :=
    (find_by_id_eq_none_iff _ P).mp h
  simp only [Asset.with_param, h, getList_setKey_list]
  rw [updateFirstById_prefix_skip _ _ P _ hall,
    updateFirstById_cons_match _ _ P _ (idMatches_seed P)]

/-- The C5 scenario document: `Asset().with_param('P1', 'A').with_param('P1', 'B')`. -/
def scenarioTwoUpserts : Dict :=
  Asset.with_param
    (Asset.with_param [] "P1" (Value.str "A") Value.null Value.null Value.null Value.null)
    "P1" (Value.str "B") Value.null Value.null Value.null Value.null

/-- C5. The parameter upsert preserves the list shape: an existing id is
updated in place (the prefix and suffix of the list are untouched), a new id is
appended at the end; and the two-upsert scenario leaves exactly one parameter
with id `P1`, whose `value` is `'B'`. -/
theorem asset_with_param_upsert_positions (asset : Dict) (P : String) (v ve vt t dsc : Value) :
    (∀ pre p post,
        (∀ e ∈ pre, elemMatchesId e P = false) →
        idMatches p P = true →
        dLookup asset "params" = some (Value.list (pre ++ Value.dict p :: post)) →
        getList (Asset.with_param asset P v ve vt t dsc) "params"
          = pre ++ Value.dict (dictUpdate p
              (filterNonNull (make_param P v ve vt t dsc Value.null Value.null))) :: post)
  ∧ (listShaped asset "params" →
      find_by_id (getList asset "params") P = none →
      getList (Asset.with_param asset P v ve vt t dsc) "params"
        = getList asset "params"
          ++ [Value.dict (dictUpdate [("id", Value.str P)]
               (filterNonNull (make_param P v ve vt t dsc Value.null Value.null)))])
  ∧ (getList scenarioTwoUpserts "params").length = 1
  ∧ find_by_id (getList scenarioTwoUpserts "params") "P1"
      = some [("id", Value.str "P1"), ("value", Value.str "B"),
              ("title", Value.str "Parameter P1 title."),
              ("description", Value.str "Parameter P1 description."),
              ("type", Value.str "text")] := by
  exact ⟨fun pre p post hpre hp hparams =>
      asset_with_param_found_case asset P v ve vt t dsc pre post p hpre hp hparams,
    fun _ h => asset_with_param_missing_case asset P v ve vt t dsc h,
    rfl, rfl⟩

/-- A document with two parameters, used by the upsert witnesses. -/
def paramsListEx : Dict :=
  [("params", Value.list
    [Value.dict [("id", Value.str "P0")],
     Value.dict [("id", Value.str "P1"), ("value", Value.str "A")]])]

/-- Witness for C5 at a concrete document: the found case at `P1`. -/
theorem asset_with_param_upsert_positions_witness :
    ((∀ e ∈ ([Value.dict [("id", Value.str "P0")]] : List Value), elemMatchesId e "P1" = false)
      ∧ idMatches [("id", Value.str "P1"), ("value", Value.str "A")] "P1" = true
      ∧ dLookup paramsListEx "params"
          = some (Value.list ([Value.dict [("id", Value.str "P0")]]
              ++ Value.dict [("id", Value.str "P1"), ("value", Value.str "A")] :: [])))
  ∧ getList (Asset.with_param paramsListEx "P1" (Value.str "B")
        Value.null Value.null Value.null Value.null) "params"
      = [Value.dict [("id", Value.str "P0")]]
        ++ Value.dict (dictUpdate [("id", Value.str "P1"), ("value", Value.str "A")]
            (filterNonNull (make_param "P1" (Value.str "B")
              Value.null Value.null Value.null Value.null Value.null Value.null))) :: [] :=
  ⟨⟨by decide, by decide, rfl⟩,
    (asset_with_param_upsert_positions paramsListEx "P1" (Value.str "B")
        Value.null Value.null Value.null Value.null).1
      [Value.dict [("id", Value.str "P0")]]
      [("id", Value.str "P1"), ("value", Value.str "A")] []
      (by decide) (by decide) rfl⟩

/-- C7. On a parameter list without the given id, the mixin upsert with
`create := false` propagates the `MissingParameterError` carrying the id and
returns no modified document (the source raises before any write), while
`create := true` appends a fresh element carrying that id. -/
theorem mixin_with_param_create_flag (data : Dict) (P : String) (v ve vt : Value)
    (hws : listShaped data "params")
    (h : find_by_id (getList data "params") P = none) :
    HasParameters.with_param data P v ve vt false
      = Except.error (BOError.missingParameter ("Missing parameter " ++ P) (some P))
  ∧ HasParameters.with_param data P v ve vt true
      = Except.ok (setKey data "params" (Value.list (getList data "params"
          ++ [Value.dict (dictUpdate [("id", Value.str P)]
               (filterNonNull (make_param P v ve vt Value.null Value.null Value.null Value.null)))])))
  ∧ dLookup (dictUpdate [("id", Value.str P)]
        (filterNonNull (make_param P v ve vt Value.null Value.null Value.null Value.null))) "id"
      = some (Value.str P) := by
  have hall : ∀ e ∈ getList data "params", elemMatchesId e P = false :=
    (find_by_id_eq_none_iff _ P).mp h
  refine ⟨?_, ?_, ?_⟩
  · simp [HasParameters.with_param, h]
  · simp only [HasParameters.with_param, h, if_true]
    rw [updateFirstById_prefix_skip _ _ P _ hall,
      updateFirstById_cons_match _ _ P _ (idMatches_seed P)]
  · have hid : dLookup (filterNonNull
        (make_param P v ve vt Value.null Value.null Value.null Value.null)) "id"
        = some (Value.str P) := by
      rw [dLookup_filterNonNull _ _ _
        (keysOf_make_param_nodup P v ve vt Value.null Value.null Value.null Value.null)
        (dLookup_make_param_id P v ve vt Value.null Value.null Value.null Value.null)]
      rfl
    exact dLookup_dictUpdate_mem _ _ _ _
      (keysOf_members_nodup P v ve vt Value.null Value.null Value.null Value.null) hid

/-- Witness for C7 at a concrete document and missing id. -/
theorem mixin_with_param_create_flag_witness :
    (listShaped paramsListEx "params"
      ∧ find_by_id (getList paramsListEx "params") "P9" = none)
  ∧ HasParameters.with_param paramsListEx "P9" (Value.str "X") Value.null (Value.str "text") false
      = Except.error (BOError.missingParameter "Missing parameter P9" (some "P9")) :=
  ⟨⟨Or.inr ⟨_, rfl⟩, rfl⟩,
    (mixin_with_param_create_flag paramsListEx "P9" (Value.str "X") Value.null
      (Value.str "text") (Or.inr ⟨_, rfl⟩) rfl).1⟩

/-- An asset whose parameter `P1` carries a custom title, description and type. -/
def customTitleAsset : Dict :=
  [("params", Value.list [Value.dict
    [("id", Value.str "P1"), ("title", Value.str "Custom title"),
     ("description", Value.str "Custom description"),
     ("type", Value.str "password"), ("value", Value.str "A")]])]

/-- Counterexample to C2: upserting `P1` with only a value supplied rewrites
the previously stored custom title with the `make_param` default, so an
unsupplied field does not keep its previous value. -/
theorem asset_with_param_overwrites_unsupplied_title :
    (find_by_id (getList (Asset.with_param customTitleAsset "P1" (Value.str "B")
        Value.null Value.null Value.null Value.null) "params") "P1").bind
      (fun q => dLookup q "title") = some (Value.str "Parameter P1 title.")
  ∧ (find_by_id (getList customTitleAsset "params") "P1").bind
      (fun q => dLookup q "title") = some (Value.str "Custom title")
  ∧ some (Value.str "Parameter P1 title.") ≠ some (Value.str "Custom title") := by
  refine ⟨rfl, rfl, ?_⟩
  simp

/-- C2 as amended.  Upserting an existing parameter keeps the element in place
and updates only the supplied fields among `value`/`structured_value` and
`value_error` (`scope` and `phase` are never passed by `Asset.with_param`), but
`title`, `description` and `type` are always rewritten, with the `make_param`
defaults when they are not supplied. -/
theorem asset_with_param_partial_patch_amended (asset : Dict) (P : String) (v : Value)
    (pre post : List Value) (p : Dict)
    (hpre : ∀ e ∈ pre, elemMatchesId e P = false)
    (hp : idMatches p P = true)
    (hparams : dLookup asset "params" = some (Value.list (pre ++ Value.dict p :: post)))
    (hd : isDict v = false) (hl : isList v = false) (hn : isNull v = false) :
    let ms := filterNonNull
      (make_param P v Value.null Value.null Value.null Value.null Value.null Value.null)
    getList (Asset.with_param asset P v Value.null Value.null Value.null Value.null) "params"
      = pre ++ Value.dict (dictUpdate p ms) :: post
  ∧ dLookup (dictUpdate p ms) "value" = some v
  ∧ dLookup (dictUpdate p ms) "value_error" = dLookup p "value_error"
  ∧ dLookup (dictUpdate p ms) "scope" = dLookup p "scope"
  ∧ dLookup (dictUpdate p ms) "phase" = dLookup p "phase"
  ∧ dLookup (dictUpdate p ms) "structured_value" = dLookup p "structured_value"
  ∧ dLookup (dictUpdate p ms) "title"
      = some (Value.str ("Parameter " ++ P ++ " title."))
  ∧ dLookup (dictUpdate p ms) "description"
      = some (Value.str ("Parameter " ++ P ++ " description."))
  ∧ dLookup (dictUpdate p ms) "type" = some (Value.str "text") := by
  intro ms
  have hnodupMP := keysOf_make_param_nodup P v Value.null Value.null Value.null Value.null
    Value.null Value.null
  have hnodupMS := keysOf_members_nodup P v Value.null Value.null Value.null Value.null
    Value.null Value.null
  have hnone : ∀ k : String,
      dLookup (make_param P v Value.null Value.null Value.null Value.null Value.null Value.null)
        k = some Value.null → dLookup (dictUpdate p ms) k = dLookup p k := by
    intro k hk
    have hms : dLookup ms k = none := by
      rw [dLookup_filterNonNull _ _ _ hnodupMP hk]; rfl
    exact dLookup_dictUpdate_not_mem p ms k ((dLookup_eq_none_iff ms k).mp hms)
  have hkeep : ∀ (k : String) (x : Value),
      dLookup (make_param P v Value.null Value.null Value.null Value.null Value.null Value.null)
        k = some x → isNull x = false → dLookup (dictUpdate p ms) k = some x := by
    intro k x hk hx
    have hms : dLookup ms k = some x := by
      rw [dLookup_filterNonNull _ _ _ hnodupMP hk, hx]
      simp
    exact dLookup_dictUpdate_mem p ms k x hnodupMS hms
  refine ⟨asset_with_param_found_case asset P v Value.null Value.null Value.null Value.null
      pre post p hpre hp hparams, ?_, ?_, ?_, ?_, ?_, ?_, ?_, ?_⟩
  · exact hkeep "value" v
      (dLookup_make_param_value_scalar P v Value.null Value.null Value.null Value.null
        Value.null Value.null hd hl).1 hn
  · exact hnone "value_error"
      (dLookup_make_param_value_error P v Value.null Value.null Value.null Value.null
        Value.null Value.null)
  · exact hnone "scope"
      (dLookup_make_param_scope P v Value.null Value.null Value.null Value.null
        Value.null Value.null)
  · exact hnone "phase"
      (dLookup_make_param_phase P v Value.null Value.null Value.null Value.null
        Value.null Value.null)
  · have hms : dLookup ms "structured_value" = none :=
      dLookup_filterNonNull_of_none _ _
        (dLookup_make_param_value_scalar P v Value.null Value.null Value.null Value.null
          Value.null Value.null hd hl).2
    exact dLookup_dictUpdate_not_mem p ms _ ((dLookup_eq_none_iff ms _).mp hms)
  · exact hkeep "title" _
      (dLookup_make_param_title P v Value.null Value.null Value.null Value.null
        Value.null Value.null) rfl
  · exact hkeep "description" _
      (dLookup_make_param_description P v Value.null Value.null Value.null Value.null
        Value.null Value.null) rfl
  · exact hkeep "type" _
      (dLookup_make_param_type P v Value.null Value.null Value.null Value.null
        Value.null Value.null) rfl

/-- Witness for the amended C2 at a concrete document. -/
theorem asset_with_param_partial_patch_amended_witness :
    ((∀ e ∈ ([] : List Value), elemMatchesId e "P1" = false)
      ∧ idMatches [("id", Value.str "P1"), ("title", Value.str "Custom title"),
          ("description", Value.str "Custom description"),
          ("type", Value.str "password"), ("value", Value.str "A")] "P1" = true
      ∧ isDict (Value.str "B") = false ∧ isList (Value.str "B") = false
      ∧ isNull (Value.str "B") = false)
  ∧ dLookup (dictUpdate
      [("id", Value.str "P1"), ("title", Value.str "Custom title"),
       ("description", Value.str "Custom description"),
       ("type", Value.str "password"), ("value", Value.str "A")]
      (filterNonNull (make_param "P1" (Value.str "B")
        Value.null Value.null Value.null Value.null Value.null Value.null))) "title"
      = some (Value.str "Parameter P1 title.") :=
  ⟨⟨by decide, by decide, rfl, rfl, rfl⟩,
    (asset_with_param_partial_patch_amended customTitleAsset "P1" (Value.str "B")
      [] []
      [("id", Value.str "P1"), ("title", Value.str "Custom title"),
       ("description", Value.str "Custom description"),
       ("type", Value.str "password"), ("value", Value.str "A")]
      (by decide) (by decide) rfl rfl rfl rfl).2.2.2.2.2.2.1⟩

/-- The C6 counterexample document: `P1` upserted with a scalar and then with a
mapping. -/
def scalarThenStructured : Dict :=
  Asset.with_param
    (Asset.with_param [] "P1" (Value.str "A") Value.null Value.null Value.null Value.null)
    "P1" (Value.dict [("nested", Value.int 1)]) Value.null Value.null Value.null Value.null

/-- Counterexample to C6: after a scalar upsert followed by a structured
upsert, the parameter `P1` carries both the `value` and the `structured_value`
fields, so the two fields are not mutually exclusive. -/
theorem asset_param_value_fields_not_exclusive :
    (find_by_id (getList scalarThenStructured "params") "P1").bind
      (fun q => dLookup q "value") = some (Value.str "A")
  ∧ (find_by_id (getList scalarThenStructured "params") "P1").bind
      (fun q => dLookup q "structured_value")
      = some (Value.dict [("nested", Value.int 1)]) :=
  ⟨rfl, rfl⟩

/-- C6 as amended.  An upsert whose value is a mapping or a sequence stores it
under `structured_value` and writes nothing under `value` (a previously stored
`value` survives unchanged, which is why the two fields are not exclusive
across successive upserts); a parameter freshly created by a single structured
upsert carries `structured_value` and no `value`. -/
theorem asset_with_param_structured_value_amended (p : Dict) (P : String) (v ve vt t dsc : Value)
    (hv : isDict v = true ∨ isList v = true) :
    let ms := filterNonNull (make_param P v ve vt t dsc Value.null Value.null)
    dLookup ms "structured_value" = some v
  ∧ dLookup ms "value" = none
  ∧ dLookup (dictUpdate p ms) "structured_value" = some v
  ∧ dLookup (dictUpdate p ms) "value" = dLookup p "value"
  ∧ find_by_id (getList (Asset.with_param [] "P1" (Value.dict [("nested", Value.int 1)])
        Value.null Value.null Value.null Value.null) "params") "P1"
      = some [("id", Value.str "P1"),
              ("structured_value", Value.dict [("nested", Value.int 1)]),
              ("title", Value.str "Parameter P1 title."),
              ("description", Value.str "Parameter P1 description."),
              ("type", Value.str "text")] := by
  intro ms
  have hnodupMP := keysOf_make_param_nodup P v ve vt t dsc Value.null Value.null
  have hnodupMS := keysOf_members_nodup P v ve vt t dsc Value.null Value.null
  have hsv : dLookup ms "structured_value" = some v := by
    rw [dLookup_filterNonNull _ _ _ hnodupMP
      (dLookup_make_param_value_structured P v ve vt t dsc Value.null Value.null hv).1,
      isNull_of_structured v hv]
    simp
  have hval : dLookup ms "value" = none :=
    dLookup_filterNonNull_of_none _ _
      (dLookup_make_param_value_structured P v ve vt t dsc Value.null Value.null hv).2
  refine ⟨hsv, hval, ?_, ?_, rfl⟩
  · exact dLookup_dictUpdate_mem p ms _ v hnodupMS hsv
  · exact dLookup_dictUpdate_not_mem p ms _ ((dLookup_eq_none_iff ms _).mp hval)

/-- Witness for the amended C6 at a concrete parameter and mapping value. -/
theorem asset_with_param_structured_value_amended_witness :
    (isDict (Value.dict [("nested", Value.int 1)]) = true
      ∨ isList (Value.dict [("nested", Value.int 1)]) = true)
  ∧ dLookup (dictUpdate [("id", Value.str "P1"), ("value", Value.str "A")]
      (filterNonNull (make_param "P1" (Value.dict [("nested", Value.int 1)])
        Value.null Value.null Value.null Value.null Value.null Value.null)))
      "structured_value" = some (Value.dict [("nested", Value.int 1)])
  ∧ dLookup (dictUpdate [("id", Value.str "P1"), ("value", Value.str "A")]
      (filterNonNull (make_param "P1" (Value.dict [("nested", Value.int 1)])
        Value.null Value.null Value.null Value.null Value.null Value.null)))
      "value" = some (Value.str "A") :=
  ⟨Or.inl rfl,
    (asset_with_param_structured_value_amended
      [("id", Value.str "P1"), ("value", Value.str "A")] "P1"
      (Value.dict [("nested", Value.int 1)])
      Value.null Value.null Value.null Value.null (Or.inl rfl)).2.2.1,
    (asset_with_param_structured_value_amended
      [("id", Value.str "P1"), ("value", Value.str "A")] "P1"
      (Value.dict [("nested", Value.int 1)])
      Value.null Value.null Value.null Value.null (Or.inl rfl)).2.2.2.1⟩

/-- An asset with the single item `I1`, which has an empty parameter list. -/
def itemNoParamsAsset : Dict :=
  [("items", Value.list [Value.dict [("id", Value.str "I1"), ("params", Value.list [])]])]

/-- Whether a result failed with the "missing parameter" kind. -/
def errorKindIsMissingParameter : Except BOError Dict → Bool
  | Except.error e => e.isMissingParameterKind
  | Except.ok _ => false

/-- Counterexample to C8: reading a missing parameter of an existing item
raises the missing-item kind carrying the item id, not the missing-parameter
kind carrying the parameter id. -/
theorem asset_item_param_error_kind_cex :
    Asset.item_param itemNoParamsAsset "I1" "P1"
      = Except.error (BOError.missingItem "Missing item P1 in item I1" (some "I1"))
  ∧ errorKindIsMissingParameter (Asset.item_param itemNoParamsAsset "I1" "P1") = false :=
  ⟨rfl, rfl⟩

/-- C8 as amended.  Both failure paths of `Asset.item_param` raise the
missing-item kind carrying the item id: when the item exists but the parameter
does not, the message names the parameter inside the item; when the item id is
absent, the message names the item. -/
theorem asset_item_param_error_kinds_amended (asset : Dict) (I P : String) :
    (∀ pre item post,
        (∀ e ∈ pre, elemMatchesId e I = false) →
        idMatches item I = true →
        dLookup asset "items" = some (Value.list (pre ++ Value.dict item :: post)) →
        listShaped item "params" →
        find_by_id (getList item "params") P = none →
        Asset.item_param asset I P
          = Except.error (BOError.missingItem
              ("Missing item " ++ P ++ " in item " ++ I) (some I)))
  ∧ (listShaped asset "items" →
      find_by_id (getList asset "items") I = none →
      Asset.item_param asset I P
        = Except.error (BOError.missingItem ("Missing item " ++ I) (some I))) := by
  constructor
  · intro pre item post hpre hitem hitems _ hP
    have hgi : getList asset "items" = pre ++ Value.dict item :: post := by
      simp [getList, hitems, asList]
    have hfind : find_by_id (getList asset "items") I = some item := by
      rw [hgi, find_by_id_prefix_skip pre _ I hpre, find_by_id_cons_match item post I hitem]
    have hps : asList (match dLookup item "params" with
        | some w => w
        | none => Value.list []) = getList item "params" := by
      cases hp : dLookup item "params" <;> simp [getList, asList, hp]
    simp only [Asset.item_param, Asset.itemGet, Asset.item, hfind, hps, hP]
  · intro _ h
    simp only [Asset.item_param, Asset.itemGet, Asset.item, h]

/-- Witness for the amended C8 at a concrete asset, on both failure paths. -/
theorem asset_item_param_error_kinds_amended_witness :
    ((∀ e ∈ ([] : List Value), elemMatchesId e "I1" = false)
      ∧ idMatches [("id", Value.str "I1"), ("params", Value.list [])] "I1" = true
      ∧ find_by_id (getList itemNoParamsAsset "items") "I9" = none)
  ∧ Asset.item_param itemNoParamsAsset "I1" "P1"
      = Except.error (BOError.missingItem "Missing item P1 in item I1" (some "I1"))
  ∧ Asset.item_param itemNoParamsAsset "I9" "P1"
      = Except.error (BOError.missingItem "Missing item I9" (some "I9")) :=
  ⟨⟨by decide, by decide, rfl⟩,
    (asset_item_param_error_kinds_amended itemNoParamsAsset "I1" "P1").1
      [] [("id", Value.str "I1"), ("params", Value.list [])] []
      (by decide) (by decide) rfl (Or.inr ⟨_, rfl⟩) rfl,
    (asset_item_param_error_kinds_amended itemNoParamsAsset "I9" "P1").2
      (Or.inr ⟨_, rfl⟩) rfl⟩

/-- C10. Re-upserting an existing item always rewrites its `mpn`, `quantity`
and `params` members — `params` becomes the freshly supplied list (empty when
the argument is omitted), discarding whatever item parameters were stored —
while the omitted optional members (`old_quantity`, `item_type`, `period`,
`type` from `unit`, `display_name`, `global_id`) and every other member keep
their previous values. -/
theorem asset_with_item_resets_params (asset : Dict) (I mpn q : String)
    (pre post : List Value) (it : Dict)
    (hpre : ∀ e ∈ pre, elemMatchesId e I = false)
    (hit : idMatches it I = true)
    (hitems : dLookup asset "items" = some (Value.list (pre ++ Value.dict it :: post))) :
    let ms : Dict := [("mpn", Value.str mpn), ("quantity", Value.str q),
      ("params", Value.list [])]
    let it' := dictUpdate it ms
    Asset.with_item asset I mpn (Value.str q) Value.null Value.null Value.null Value.null
        Value.null Value.null none
      = Except.ok (setKey asset "items" (Value.list (pre ++ Value.dict it' :: post)))
  ∧ dLookup it' "params" = some (Value.list [])
  ∧ dLookup it' "mpn" = some (Value.str mpn)
  ∧ dLookup it' "quantity" = some (Value.str q)
  ∧ (∀ k, k ≠ "mpn" → k ≠ "quantity" → k ≠ "params" → dLookup it' k = dLookup it k)
  ∧ (∀ ps, Asset.with_item asset I mpn (Value.str q) Value.null Value.null Value.null
        Value.null Value.null Value.null (some ps)
      = Asset.with_item_params
          (setKey asset "items" (Value.list (pre ++ Value.dict it' :: post))) I ps) := by
  intro ms it'
  have hgi : getList asset "items" = pre ++ Value.dict it :: post := by
    simp [getList, hitems, asList]
  have hfind : find_by_id (getList asset "items") I = some it := by
    rw [hgi, find_by_id_prefix_skip pre _ I hpre, find_by_id_cons_match it post I hit]
  have hflt : filterNonNull
      [ ("global_id", Value.null), ("display_name", Value.null), ("mpn", Value.str mpn),
        ("quantity", Value.str q), ("old_quantity", Value.null), ("params", Value.list []),
        ("item_type", Value.null), ("period", Value.null), ("type", Value.null) ] = ms := rfl
  have hupd : updateFirstById (getList asset "items") I ms = pre ++ Value.dict it' :: post := by
    rw [hgi, updateFirstById_prefix_skip pre _ I _ hpre,
      updateFirstById_cons_match it post I _ hit]
  have hmain : ∀ ps : Option (List ItemParamArgs),
      Asset.with_item asset I mpn (Value.str q) Value.null Value.null Value.null Value.null
          Value.null Value.null ps
        = Asset.with_item_params
            (setKey asset "items" (Value.list (pre ++ Value.dict it' :: post))) I (ps.getD []) := by
    intro ps
    simp only [Asset.with_item, hfind, hflt, hupd]
  have hndms : (keysOf ms).Nodup := by
    show (["mpn", "quantity", "params"] : List String).Nodup
    decide
  refine ⟨?_, ?_, ?_, ?_, ?_, ?_⟩
  · rw [hmain none]; rfl
  · exact dLookup_dictUpdate_mem it ms _ _ hndms rfl
  · exact dLookup_dictUpdate_mem it ms _ _ hndms rfl
  · exact dLookup_dictUpdate_mem it ms _ _ hndms (by simp [dLookup])
  · intro k h1 h2 h3
    exact dLookup_dictUpdate_not_mem it ms k (by simp [ms, keysOf, h1, h2, h3])
  · intro ps
    rw [hmain (some ps)]
    rfl

/-- An asset with one item `I1` that already stores an item parameter and an
`old_quantity`, used by the C10 witness. -/
def itemWithParamsAsset : Dict :=
  [("items", Value.list [Value.dict
    [("id", Value.str "I1"),
     ("params", Value.list [Value.dict [("id", Value.str "PX"), ("value", Value.str "old")]]),
     ("old_quantity", Value.str "5")]])]

/-- Witness for C10 at a concrete asset: the stored item parameter is
discarded, `old_quantity` survives. -/
theorem asset_with_item_resets_params_witness :
    ((∀ e ∈ ([] : List Value), elemMatchesId e "I1" = false)
      ∧ idMatches [("id", Value.str "I1"),
          ("params", Value.list [Value.dict [("id", Value.str "PX"),
            ("value", Value.str "old")]]),
          ("old_quantity", Value.str "5")] "I1" = true)
  ∧ dLookup (dictUpdate [("id", Value.str "I1"),
        ("params", Value.list [Value.dict [("id", Value.str "PX"),
          ("value", Value.str "old")]]),
        ("old_quantity", Value.str "5")]
      [("mpn", Value.str "MPN1"), ("quantity", Value.str "1"), ("params", Value.list [])])
      "params" = some (Value.list [])
  ∧ dLookup (dictUpdate [("id", Value.str "I1"),
        ("params", Value.list [Value.dict [("id", Value.str "PX"),
          ("value", Value.str "old")]]),
        ("old_quantity", Value.str "5")]
      [("mpn", Value.str "MPN1"), ("quantity", Value.str "1"), ("params", Value.list [])])
      "old_quantity"
      = dLookup [("id", Value.str "I1"),
          ("params", Value.list [Value.dict [("id", Value.str "PX"),
            ("value", Value.str "old")]]),
          ("old_quantity", Value.str "5")] "old_quantity" :=
  ⟨⟨by decide, by decide⟩,
    (asset_with_item_resets_params itemWithParamsAsset "I1" "MPN1" "1" [] []
      [("id", Value.str "I1"),
       ("params", Value.list [Value.dict [("id", Value.str "PX"),
         ("value", Value.str "old")]]),
       ("old_quantity", Value.str "5")]
      (by decide) (by decide) rfl).2.1,
    (asset_with_item_resets_params itemWithParamsAsset "I1" "MPN1" "1" [] []
      [("id", Value.str "I1"),
       ("params", Value.list [Value.dict [("id", Value.str "PX"),
         ("value", Value.str "old")]]),
       ("old_quantity", Value.str "5")]
      (by decide) (by decide) rfl).2.2.2.2.1 "old_quantity"
      (by decide) (by decide) (by decide)⟩

end ConnectBO
